import Mathlib

/-!
# Team-member handlers of `pkg/api/team_members.go`

A shallow embedding of the four HTTP handlers `GetTeamMembers`, `AddTeamMember`,
`UpdateTeamMember`, `RemoveTeamMember` and of the helper `addOrUpdateTeamMember`.

The handlers are glue over collaborators that live outside the file (the bus, the
team guardian, the SQL store, the resource-permission service).  Each collaborator
is a field of a record and is a state-passing function over an arbitrary type `σ`
of collaborator state, so that a collaborator may answer differently on every call.
Every collaborator call is appended to a trace, in program order.

Identifiers (`int64` in the source) are integers; the handlers only pass them on and render
the team id in decimal, they do no arithmetic on them.
-/

namespace TeamMembers

/-! ## Go values -/

/-- A Go `error` value: a sentinel, or an error wrapping another one. -/
inductive GoError where
  | sentinel (msg : String)
  | wrap (msg : String) (inner : GoError)
  deriving DecidableEq, Repr

/-- Go `errors.Is(err, target)`: `err` or one of the errors it wraps is `target`. -/
def errorsIs : GoError → GoError → Bool
  | .sentinel m, target => decide (GoError.sentinel m = target)
  | .wrap m inner, target => decide (GoError.wrap m inner = target) || errorsIs inner target

/-- Decimal digits of a natural number, most significant first (`fuel` bounds the length). -/
def decimalDigits : Nat → Nat → List Char
  | 0, _ => []
  | fuel + 1, n =>
    if n < 10 then [Char.ofNat (48 + n)]
    else decimalDigits fuel (n / 10) ++ [Char.ofNat (48 + n % 10)]

/-- Go `strconv.FormatInt(i, 10)`: the decimal string of `i`, with a leading `-` when negative. -/
def FormatInt (i : Int) : String :=
  if i < 0 then String.mk ('-' :: decimalDigits (i.natAbs + 1) i.natAbs)
  else String.mk (decimalDigits (i.natAbs + 1) i.natAbs)

/-! ## Types of `pkg/models` and `pkg/setting` used by the handlers -/

/-- The `models.PermissionType` integer enumeration. -/
abbrev PermissionType := Int

/-- The `models.SignedInUser` of the request: the actor. -/
structure SignedInUser where
  UserId : Int
  OrgId : Int
  Login : String
  IsGrafanaAdmin : Bool
  deriving DecidableEq, Repr

/-- The `setting.Cfg` fields read here; a Go `map[string]bool` index is total, absent keys read `false`. -/
structure Cfg where
  FeatureToggles : String → Bool
  HiddenUsers : List String

/-- The `models.TeamMemberDTO` record. -/
structure TeamMemberDTO where
  OrgId : Int
  TeamId : Int
  UserId : Int
  External : Bool
  AuthModule : String
  Email : String
  Name : String
  Login : String
  AvatarUrl : String
  Labels : List String
  Permission : PermissionType
  deriving DecidableEq, Repr

/-- The `models.GetTeamMembersQuery` arguments (its `Result` is returned by `Dispatch`). -/
structure GetTeamMembersQuery where
  OrgId : Int
  TeamId : Int
  deriving DecidableEq, Repr

/-- The `models.AddTeamMemberCommand` record. -/
structure AddTeamMemberCommand where
  UserId : Int
  OrgId : Int
  TeamId : Int
  External : Bool
  Permission : PermissionType
  deriving DecidableEq, Repr

/-- The `models.UpdateTeamMemberCommand` record. -/
structure UpdateTeamMemberCommand where
  UserId : Int
  OrgId : Int
  TeamId : Int
  Permission : PermissionType
  deriving DecidableEq, Repr

/-- The request context `models.ReqContext`: organisation, actor, path parameters, raw body. -/
structure ReqContext where
  OrgId : Int
  SignedInUser : SignedInUser
  ParamsInt64 : String → Int
  Req : String

/-! ## Responses -/

/-- The payload handed to `response.JSON`. -/
inductive Body where
  | members (l : List TeamMemberDTO)
  | dynMap (l : List (String × String))
  deriving DecidableEq, Repr

/-- A response, kept as the `response.*` constructor call the handler returns. -/
inductive Response where
  | Error (status : Nat) (message : String) (err : Option GoError)
  | JSON (status : Nat) (body : Body)
  | Success (message : String)
  deriving DecidableEq, Repr

/-- The HTTP status of a response; `response.Success` is `JSON(200, …)`. -/
def Response.status : Response → Nat
  | .Error s _ _ => s
  | .JSON s _ => s
  | .Success _ => 200

/-! ## Collaborators, trace and world -/

/-- One collaborator call, with its arguments. -/
inductive Call where
  | Dispatch (q : GetTeamMembersQuery)
  | CanAdmin (orgId teamId : Int) (user : SignedInUser)
  | IsTeamMember (orgId teamId userId : Int)
  | MapPermission (permission : String)
  | SetUserPermission (orgId userId : Int) (resourceID : String) (actions : List String)
  deriving DecidableEq, Repr

/-- The world a handler runs in: the collaborators' state and the calls made so far. -/
structure World (σ : Type) where
  st : σ
  trace : List Call

/-- The `hs.License` field. -/
structure Licensing where
  FeatureEnabled : String → Bool

/-- The `hs.teamGuardian` field: `CanAdmin` returns `nil` or an error. -/
structure TeamGuardian (σ : Type) where
  CanAdmin : σ → Int → Int → SignedInUser → Option GoError × σ

/-- The `hs.SQLStore` field: `IsTeamMember` returns `(bool, error)`. -/
structure SQLStore (σ : Type) where
  IsTeamMember : σ → Int → Int → Int → (Bool × Option GoError) × σ

/-- The `resourcepermissions.Service`; the first result of `SetUserPermission` is dropped by
every caller in this file, so only its error is kept. -/
structure Service (σ : Type) where
  MapPermission : σ → String → List String × σ
  SetUserPermission : σ → Int → Int → String → List String → Option GoError × σ

/-- The fields of `HTTPServer` the handlers use. -/
structure HTTPServer (σ : Type) where
  Cfg : Cfg
  License : Licensing
  teamGuardian : TeamGuardian σ
  SQLStore : SQLStore σ
  TeamPermissionsService : Service σ

/-- Package-level functions and values of other packages that the handlers use:
`bus.Dispatch`, `web.Bind`, `dtos.IsHiddenUser`, `dtos.GetGravatarUrl`,
`GetAuthProviderLabel`, `PermissionType.String`, the `models.Err…` sentinels. -/
structure Externs (σ : Type) where
  Dispatch : σ → GetTeamMembersQuery → (List TeamMemberDTO × Option GoError) × σ
  BindAdd : String → Except GoError AddTeamMemberCommand
  BindUpdate : String → Except GoError UpdateTeamMemberCommand
  IsHiddenUser : String → SignedInUser → Cfg → Bool
  GetGravatarUrl : String → String
  GetAuthProviderLabel : String → String
  PermissionString : PermissionType → String
  ErrTeamNotFound : GoError
  ErrTeamMemberNotFound : GoError

variable {σ : Type}

set_option linter.unusedVariables false

/-- Call `bus.Dispatch` on a `GetTeamMembersQuery`, recording the call. -/
def callDispatch (ex : Externs σ) (w : World σ) (q : GetTeamMembersQuery) :
    (List TeamMemberDTO × Option GoError) × World σ :=
  ((ex.Dispatch w.st q).1, ⟨(ex.Dispatch w.st q).2, w.trace ++ [Call.Dispatch q]⟩)

/-- Call `hs.teamGuardian.CanAdmin`, recording the call. -/
def callCanAdmin (hs : HTTPServer σ) (w : World σ) (orgId teamId : Int) (user : SignedInUser) :
    Option GoError × World σ :=
  ((hs.teamGuardian.CanAdmin w.st orgId teamId user).1,
    ⟨(hs.teamGuardian.CanAdmin w.st orgId teamId user).2, w.trace ++ [Call.CanAdmin orgId teamId user]⟩)

/-- Call `hs.SQLStore.IsTeamMember`, recording the call. -/
def callIsTeamMember (hs : HTTPServer σ) (w : World σ) (orgId teamId userId : Int) :
    (Bool × Option GoError) × World σ :=
  ((hs.SQLStore.IsTeamMember w.st orgId teamId userId).1,
    ⟨(hs.SQLStore.IsTeamMember w.st orgId teamId userId).2, w.trace ++ [Call.IsTeamMember orgId teamId userId]⟩)

/-- Call `MapPermission` of the resource-permission service, recording the call. -/
def callMapPermission (svc : Service σ) (w : World σ) (permission : String) :
    List String × World σ :=
  ((svc.MapPermission w.st permission).1,
    ⟨(svc.MapPermission w.st permission).2, w.trace ++ [Call.MapPermission permission]⟩)

/-- Call `SetUserPermission` of the resource-permission service, recording the call. -/
def callSetUserPermission (svc : Service σ) (w : World σ) (orgId userId : Int)
    (resourceID : String) (actions : List String) : Option GoError × World σ :=
  ((svc.SetUserPermission w.st orgId userId resourceID actions).1,
    ⟨(svc.SetUserPermission w.st orgId userId resourceID actions).2,
      w.trace ++ [Call.SetUserPermission orgId userId resourceID actions]⟩)

/-! ## The handlers -/

/-- The body of the `for` loop of `GetTeamMembers` for one member: skip it (`continue`) or
set its avatar and labels and append it to `filteredMembers`. -/
def GetTeamMembers_loopBody (ex : Externs σ) (hs : HTTPServer σ) (c : ReqContext)
    (filteredMembers : List TeamMemberDTO) (member : TeamMemberDTO) : List TeamMemberDTO :=
  if !hs.Cfg.FeatureToggles "accesscontrol" && ex.IsHiddenUser member.Login c.SignedInUser hs.Cfg then
    filteredMembers
  else
    let member := { member with AvatarUrl := ex.GetGravatarUrl member.Email }
    let member := { member with Labels := [] }
    let member :=
      if hs.License.FeatureEnabled "teamgroupsync" && member.External then
        let authProvider := ex.GetAuthProviderLabel member.AuthModule
        { member with Labels := member.Labels ++ [authProvider] }
      else member
    filteredMembers ++ [member]

/-- Handler `GET /api/teams/:teamId/members`. -/
def GetTeamMembers (ex : Externs σ) (hs : HTTPServer σ) (c : ReqContext) (w : World σ) :
    Response × World σ :=
  let query : GetTeamMembersQuery := { OrgId := c.OrgId, TeamId := c.ParamsInt64 ":teamId" }
  match callDispatch ex w query with
  | ((_, some err), w) => (Response.Error 500 "Failed to get Team Members" (some err), w)
  | ((result, none), w) =>
    let filteredMembers := result.foldl (GetTeamMembers_loopBody ex hs c) []
    (Response.JSON 200 (Body.members filteredMembers), w)

/-- The helper `addOrUpdateTeamMember`; returns the error of the `SetUserPermission` call. -/
def addOrUpdateTeamMember (ex : Externs σ) (resourcePermissionService : Service σ)
    (userID orgID teamID : Int) (isExternal : Bool) (permission : PermissionType) (w : World σ) :
    Option GoError × World σ :=
  let permissionString := ex.PermissionString permission
  let permissionString := if permissionString = "" then "Member" else permissionString
  match callMapPermission resourcePermissionService w permissionString with
  | (actions, w) =>
    let teamIDString := FormatInt teamID
    callSetUserPermission resourcePermissionService w orgID userID teamIDString actions

/-- Handler `POST /api/teams/:teamId/members`. -/
def AddTeamMember (ex : Externs σ) (hs : HTTPServer σ) (c : ReqContext) (w : World σ) :
    Response × World σ :=
  match ex.BindAdd c.Req with
  | .error err => (Response.Error 400 "bad request data" (some err), w)
  | .ok cmd =>
    let cmd := { cmd with OrgId := c.OrgId }
    let cmd := { cmd with TeamId := c.ParamsInt64 ":teamId" }
    let gate : Option GoError × World σ :=
      if !hs.Cfg.FeatureToggles "accesscontrol" then
        callCanAdmin hs w cmd.OrgId cmd.TeamId c.SignedInUser
      else (none, w)
    match gate with
    | (some err, w) => (Response.Error 403 "Not allowed to add team member" (some err), w)
    | (none, w) =>
      match callIsTeamMember hs w c.OrgId cmd.TeamId cmd.UserId with
      | ((_, some err), w) => (Response.Error 500 "Failed to update team member." (some err), w)
      | ((true, none), w) => (Response.Error 400 "User is already added to this team" none, w)
      | ((false, none), w) =>
        match addOrUpdateTeamMember ex hs.TeamPermissionsService cmd.UserId cmd.OrgId cmd.TeamId
            cmd.External cmd.Permission w with
        | (some err, w) => (Response.Error 500 "Failed to add Member to Team" (some err), w)
        | (none, w) => (Response.JSON 200 (Body.dynMap [("message", "Member added to Team")]), w)

/-- Handler `PUT /:teamId/members/:userId`. -/
def UpdateTeamMember (ex : Externs σ) (hs : HTTPServer σ) (c : ReqContext) (w : World σ) :
    Response × World σ :=
  match ex.BindUpdate c.Req with
  | .error err => (Response.Error 400 "bad request data" (some err), w)
  | .ok cmd =>
    let teamId := c.ParamsInt64 ":teamId"
    let userId := c.ParamsInt64 ":userId"
    let orgId := c.OrgId
    let gate : Option GoError × World σ :=
      if !hs.Cfg.FeatureToggles "accesscontrol" then
        callCanAdmin hs w orgId teamId c.SignedInUser
      else (none, w)
    match gate with
    | (some err, w) => (Response.Error 403 "Not allowed to update team member" (some err), w)
    | (none, w) =>
      match callIsTeamMember hs w orgId teamId userId with
      | ((_, some err), w) => (Response.Error 500 "Failed to update team member." (some err), w)
      | ((false, none), w) => (Response.Error 404 "Team member not found." none, w)
      | ((true, none), w) =>
        match addOrUpdateTeamMember ex hs.TeamPermissionsService userId orgId teamId false
            cmd.Permission w with
        | (some err, w) => (Response.Error 500 "Failed to update team member." (some err), w)
        | (none, w) => (Response.Success "Team member updated", w)

/-- Handler `DELETE /api/teams/:teamId/members/:userId`. -/
def RemoveTeamMember (ex : Externs σ) (hs : HTTPServer σ) (c : ReqContext) (w : World σ) :
    Response × World σ :=
  let orgId := c.OrgId
  let teamId := c.ParamsInt64 ":teamId"
  let userId := c.ParamsInt64 ":userId"
  let gate : Option GoError × World σ :=
    if !hs.Cfg.FeatureToggles "accesscontrol" then
      callCanAdmin hs w orgId teamId c.SignedInUser
    else (none, w)
  match gate with
  | (some err, w) => (Response.Error 403 "Not allowed to remove team member" (some err), w)
  | (none, w) =>
    let teamIDString := FormatInt teamId
    match callSetUserPermission hs.TeamPermissionsService w orgId userId teamIDString [] with
    | (some err, w) =>
      if errorsIs err ex.ErrTeamNotFound then
        (Response.Error 404 "Team not found" none, w)
      else if errorsIs err ex.ErrTeamMemberNotFound then
        (Response.Error 404 "Team member not found" none, w)
      else
        (Response.Error 500 "Failed to remove Member from Team" (some err), w)
    | (none, w) => (Response.Success "Team Member removed", w)

/-! ## The resource-permission store, modelled

`SetUserPermission` and `IsTeamMember` are implemented outside this file.  The statement about
the "external" attribute of a membership speaks of the state they keep, so that state and the
two operations are modelled here. -/

/-- Modelled from the spec: a membership held by the resource-permission store (the store is
not in `team_members.go`): the granted action set and the "external" flag. -/
structure Membership where
  actions : List String
  external : Bool
  deriving DecidableEq, Repr

/-- Modelled from the spec: the state of the resource-permission store: which teams
(organisation, resource id) exist, and the membership, if any, of each (organisation,
resource id, user). -/
structure StoreState where
  teams : Int → String → Bool
  members : Int → String → Int → Option Membership

/-- Modelled from the spec: overwrite the membership entry of one (organisation, resource id,
user) key of the store and leave every other entry as it is. -/
def StoreState.setMember (s : StoreState) (orgId : Int) (resourceID : String) (userId : Int)
    (entry : Option Membership) : StoreState :=
  { s with members := fun o r u =>
      if o = orgId ∧ r = resourceID ∧ u = userId then entry else s.members o r u }

/-- Modelled from the spec: the store write `SetUserPermission(orgId, userId, resourceID,
actions)`, absent from `team_members.go`.  An unknown team is "team not found".  An empty
action set removes the membership ("member not found" when there is none).  A non-empty
action set creates the membership, or overwrites the action set of an existing one; the
write carries no "external" value, so an existing membership keeps its flag and a created one
gets the flag `newExternal` the store decides on. -/
def modelSetUserPermission (teamNotFound memberNotFound : GoError) (newExternal : Bool)
    (s : StoreState) (orgId userId : Int) (resourceID : String) (actions : List String) :
    Option GoError × StoreState :=
  if s.teams orgId resourceID then
    match s.members orgId resourceID userId, actions with
    | none, [] => (some memberNotFound, s)
    | some _, [] => (none, s.setMember orgId resourceID userId none)
    | none, a :: rest =>
      (none, s.setMember orgId resourceID userId
        (some { actions := a :: rest, external := newExternal }))
    | some m, a :: rest =>
      (none, s.setMember orgId resourceID userId (some { m with actions := a :: rest }))
  else (some teamNotFound, s)

/-- Modelled from the spec: the existence check `IsTeamMember(orgId, teamId, userId)`, absent
from `team_members.go`: the user has a membership on the team's resource. -/
def modelIsTeamMember (s : StoreState) (orgId teamId userId : Int) :
    (Bool × Option GoError) × StoreState :=
  (((s.members orgId (FormatInt teamId) userId).isSome, none), s)

/-- Modelled from the spec: a server whose SQL store and resource-permission service are the
modelled store, with a pure guardian and a pure permission mapper. -/
def modelServer (cfg : Cfg) (license : Licensing)
    (guardian : Int → Int → SignedInUser → Option GoError) (mapper : String → List String)
    (teamNotFound memberNotFound : GoError) (newExternal : Bool) : HTTPServer StoreState :=
  { Cfg := cfg
    License := license
    teamGuardian := { CanAdmin := fun s orgId teamId user => (guardian orgId teamId user, s) }
    SQLStore := { IsTeamMember := modelIsTeamMember }
    TeamPermissionsService :=
      { MapPermission := fun s permission => (mapper permission, s)
        SetUserPermission := modelSetUserPermission teamNotFound memberNotFound newExternal } }

/-! ## A concrete deployment

Organisation 1 with team 3; user 7 is an externally synced member of the team, user 5 is not
a member; the login "ghost" is hidden. -/

/-- The sentinel `models.ErrTeamNotFound` of the deployment. -/
def demoErrTeamNotFound : GoError := .sentinel "Team not found"

/-- The sentinel `models.ErrTeamMemberNotFound` of the deployment. -/
def demoErrTeamMemberNotFound : GoError := .sentinel "Team member not found"

/-- The error the demo guardian answers to an actor that is not an admin. -/
def demoErrNotAllowed : GoError := .sentinel "Not allowed to update team"

/-- The store of the deployment. -/
def demoStore : StoreState :=
  { teams := fun o r => decide (o = 1 ∧ r = "3")
    members := fun o r u =>
      if o = 1 ∧ r = "3" ∧ u = 7 then some { actions := ["teams:read"], external := true }
      else none }

/-- The member rows the demo query returns. -/
def demoRows : List TeamMemberDTO :=
  [ { OrgId := 1, TeamId := 3, UserId := 7, External := true, AuthModule := "ldap",
      Email := "ann@example.org", Name := "Ann", Login := "ann", AvatarUrl := "", Labels := [],
      Permission := 0 },
    { OrgId := 1, TeamId := 3, UserId := 8, External := false, AuthModule := "",
      Email := "ghost@example.org", Name := "Ghost", Login := "ghost", AvatarUrl := "",
      Labels := [], Permission := 4 } ]

/-- The package-level functions of the deployment. -/
def demoExterns : Externs StoreState :=
  { Dispatch := fun s _ => ((demoRows, none), s)
    BindAdd := fun req =>
      if req = "userId=5" then
        .ok { UserId := 5, OrgId := 0, TeamId := 0, External := false, Permission := 4 }
      else if req = "userId=7" then
        .ok { UserId := 7, OrgId := 0, TeamId := 0, External := false, Permission := 0 }
      else .error (.sentinel "bad request data")
    BindUpdate := fun req =>
      if req = "permission=4" then .ok { UserId := 0, OrgId := 0, TeamId := 0, Permission := 4 }
      else if req = "permission=2" then
        .ok { UserId := 0, OrgId := 0, TeamId := 0, Permission := 2 }
      else if req = "permission=0" then
        .ok { UserId := 0, OrgId := 0, TeamId := 0, Permission := 0 }
      else .error (.sentinel "bad request data")
    IsHiddenUser := fun login user cfg =>
      !(login == "") && !user.IsGrafanaAdmin && !(login == user.Login) &&
        cfg.HiddenUsers.contains login
    GetGravatarUrl := fun email => "/avatar/" ++ email
    GetAuthProviderLabel := fun authModule => if authModule = "ldap" then "LDAP" else authModule
    PermissionString := fun p =>
      if p = 1 then "View" else if p = 2 then "Edit" else if p = 4 then "Admin" else ""
    ErrTeamNotFound := demoErrTeamNotFound
    ErrTeamMemberNotFound := demoErrTeamMemberNotFound }

/-- The guardian of the deployment: only a Grafana admin may administer a team. -/
def demoGuardian (orgId teamId : Int) (user : SignedInUser) : Option GoError :=
  if user.IsGrafanaAdmin then none else some demoErrNotAllowed

/-- The mapper of the deployment. -/
def demoMapper (permission : String) : List String :=
  if permission = "Admin" then ["teams:read", "teams:write", "teams.permissions:write"]
  else if permission = "Member" then ["teams:read"]
  else []

/-- The deployment in legacy mode: no feature toggle is set. -/
def demoLegacy : HTTPServer StoreState :=
  modelServer { FeatureToggles := fun _ => false, HiddenUsers := ["ghost"] }
    { FeatureEnabled := fun feature => feature == "teamgroupsync" }
    demoGuardian demoMapper demoErrTeamNotFound demoErrTeamMemberNotFound false

/-- The deployment in fine-grained mode: the "accesscontrol" toggle is set. -/
def demoFine : HTTPServer StoreState :=
  modelServer { FeatureToggles := fun toggle => toggle == "accesscontrol", HiddenUsers := ["ghost"] }
    { FeatureEnabled := fun feature => feature == "teamgroupsync" }
    demoGuardian demoMapper demoErrTeamNotFound demoErrTeamMemberNotFound false

/-- An actor that is a Grafana admin. -/
def demoAdmin : SignedInUser := { UserId := 1, OrgId := 1, Login := "root", IsGrafanaAdmin := true }

/-- An actor that is not an admin. -/
def demoViewer : SignedInUser := { UserId := 9, OrgId := 1, Login := "bob", IsGrafanaAdmin := false }

/-- A request of `actor` in organisation 1 on team 3 and user `userId`, with body `body`. -/
def demoRequest (actor : SignedInUser) (userId : Int) (body : String) : ReqContext :=
  { OrgId := 1
    SignedInUser := actor
    ParamsInt64 := fun name => if name = ":teamId" then 3 else if name = ":userId" then userId else 0
    Req := body }

/-- The world of the deployment before any call. -/
def demoWorld : World StoreState := { st := demoStore, trace := [] }

/-! ## Vocabulary of the statements -/

/-- The calls a handler run made: the trace of its result without the calls made before it. -/
def callsMade (w : World σ) (r : World σ) : List Call :=
  r.trace.drop w.trace.length

/-- Is the call a `CanAdmin` call. -/
def Call.isCanAdmin : Call → Bool
  | .CanAdmin _ _ _ => true
  | _ => false

/-- Is the call an `IsTeamMember` call. -/
def Call.isIsTeamMember : Call → Bool
  | .IsTeamMember _ _ _ => true
  | _ => false

/-- Is the call a `MapPermission` call. -/
def Call.isMapPermission : Call → Bool
  | .MapPermission _ => true
  | _ => false

/-- Is the call a `SetUserPermission` call. -/
def Call.isSetUserPermission : Call → Bool
  | .SetUserPermission _ _ _ _ => true
  | _ => false

/-- The authorization gate passes: fine-grained mode, or `CanAdmin` answers `nil`. -/
def gatePasses (hs : HTTPServer σ) (w : World σ) (orgId teamId : Int) (user : SignedInUser) : Prop :=
  hs.Cfg.FeatureToggles "accesscontrol" = true ∨
    (hs.teamGuardian.CanAdmin w.st orgId teamId user).1 = none

/-- The world right after the authorization gate: in legacy mode `CanAdmin` has been called. -/
def afterGate (hs : HTTPServer σ) (w : World σ) (orgId teamId : Int) (user : SignedInUser) : World σ :=
  if !hs.Cfg.FeatureToggles "accesscontrol" then (callCanAdmin hs w orgId teamId user).2 else w

/-- The label `addOrUpdateTeamMember` hands to the mapper: the empty label becomes "Member". -/
def normalize (s : String) : String :=
  if s = "" then "Member" else s

/-- The presentation fields the loop of `GetTeamMembers` sets on a member it keeps: the avatar
derived from the e-mail, and the label list, empty or holding the auth-provider label. -/
def presented (ex : Externs σ) (hs : HTTPServer σ) (member : TeamMemberDTO) : TeamMemberDTO :=
  { member with
    AvatarUrl := ex.GetGravatarUrl member.Email
    Labels :=
      if hs.License.FeatureEnabled "teamgroupsync" && member.External then
        [ex.GetAuthProviderLabel member.AuthModule]
      else [] }

/-- Two records of the same member: equal in every field but the presentation fields
`AvatarUrl` and `Labels`. -/
def sameMember (a b : TeamMemberDTO) : Prop :=
  a.OrgId = b.OrgId ∧ a.TeamId = b.TeamId ∧ a.UserId = b.UserId ∧ a.External = b.External ∧
    a.AuthModule = b.AuthModule ∧ a.Email = b.Email ∧ a.Name = b.Name ∧ a.Login = b.Login ∧
    a.Permission = b.Permission

/-! ## Helper lemmas -/

/-- The character of a decimal digit. -/
theorem digitChar_lt_ten (d : Nat) (h : d < 10) : Nat.digitChar d = Char.ofNat (48 + d) := by
  interval_cases d <;> rfl

/-- With fuel above the number, `decimalDigits` computes the digits of the library rendering. -/
theorem toDigitsCore_eq_decimalDigits (fuel n : Nat) (ds : List Char) (h : n < fuel) :
    Nat.toDigitsCore 10 fuel n ds = decimalDigits fuel n ++ ds := by
  induction fuel generalizing n ds with
  | zero => omega
  | succ fuel ih =>
    unfold Nat.toDigitsCore decimalDigits
    by_cases hn : n < 10
    · have h0 : n / 10 = 0 := by omega
      have hm : n % 10 = n := by omega
      simp [hn, h0, hm, digitChar_lt_ten n hn]
    · have h0 : n / 10 ≠ 0 := by omega
      have hlt : n / 10 < fuel := by omega
      simp only [hn, h0, if_false]
      rw [ih (n / 10) _ hlt, digitChar_lt_ten (n % 10) (by omega)]
      simp

/-- The rendering `FormatInt` is the decimal rendering of integers of the Lean library: the
fuel of `decimalDigits` never runs out. -/
theorem FormatInt_eq_toString (i : Int) : FormatInt i = toString i := by
  cases i with
  | ofNat n =>
    have hnn : ¬ ((Int.ofNat n) < 0) := by simp
    simp only [FormatInt, hnn, if_false]
    show _ = Nat.repr n
    simp [Nat.repr, Nat.toDigits, toDigitsCore_eq_decimalDigits n.succ n [] (by omega),
      List.asString]
  | negSucc n =>
    have hneg : (Int.negSucc n) < 0 := Int.negSucc_lt_zero n
    simp only [FormatInt, hneg, if_true]
    show _ = "-" ++ Nat.repr (n + 1)
    simp [Nat.repr, Nat.toDigits, toDigitsCore_eq_decimalDigits (n + 2) (n + 1) [] (by omega),
      List.asString]
    rfl

/-- Sample renderings, among them the bounds of `int64`. -/
theorem FormatInt_samples :
    FormatInt 0 = "0" ∧ FormatInt 3 = "3" ∧ FormatInt (-120) = "-120" ∧
    FormatInt 9223372036854775807 = "9223372036854775807" ∧
    FormatInt (-9223372036854775808) = "-9223372036854775808" := by
  simp only [FormatInt_eq_toString]
  decide

theorem callsMade_of_trace_eq (w r : World σ) (xs : List Call)
    (h : r.trace = w.trace ++ xs) : callsMade w r = xs := by
  simp [callsMade, h]

theorem callsMade_self (w : World σ) : callsMade w w = [] := by
  simp [callsMade]

/-! ## C1 — the legacy gate denies -/

/-- C1 (amended), `RemoveTeamMember`, and `AddTeamMember` / `UpdateTeamMember` on a body that
binds: in legacy mode, when `CanAdmin` answers an error the response is the 403 error carrying
it and the only call made is the `CanAdmin` call; on a body that does not bind the handlers
answer 400 and make no call at all.  In every case no `SetUserPermission` call is made. -/
theorem C1_legacy_gate_denies (ex : Externs σ) (hs : HTTPServer σ) (c : ReqContext) (w : World σ)
    (err : GoError)
    (hlegacy : hs.Cfg.FeatureToggles "accesscontrol" = false)
    (hdeny : (hs.teamGuardian.CanAdmin w.st c.OrgId (c.ParamsInt64 ":teamId") c.SignedInUser).1
      = some err) :
    ((RemoveTeamMember ex hs c w).1.status = 403 ∧
      callsMade w (RemoveTeamMember ex hs c w).2
        = [Call.CanAdmin c.OrgId (c.ParamsInt64 ":teamId") c.SignedInUser]) ∧
    ((∀ cmd, ex.BindAdd c.Req = .ok cmd →
        (AddTeamMember ex hs c w).1.status = 403 ∧
        callsMade w (AddTeamMember ex hs c w).2
          = [Call.CanAdmin c.OrgId (c.ParamsInt64 ":teamId") c.SignedInUser]) ∧
      (∀ e, ex.BindAdd c.Req = .error e →
        (AddTeamMember ex hs c w).1 = Response.Error 400 "bad request data" (some e) ∧
        callsMade w (AddTeamMember ex hs c w).2 = [])) ∧
    ((∀ cmd, ex.BindUpdate c.Req = .ok cmd →
        (UpdateTeamMember ex hs c w).1.status = 403 ∧
        callsMade w (UpdateTeamMember ex hs c w).2
          = [Call.CanAdmin c.OrgId (c.ParamsInt64 ":teamId") c.SignedInUser]) ∧
      (∀ e, ex.BindUpdate c.Req = .error e →
        (UpdateTeamMember ex hs c w).1 = Response.Error 400 "bad request data" (some e) ∧
        callsMade w (UpdateTeamMember ex hs c w).2 = [])) ∧
    (∀ call ∈ callsMade w (RemoveTeamMember ex hs c w).2, call.isSetUserPermission = false) ∧
    (∀ call ∈ callsMade w (AddTeamMember ex hs c w).2, call.isSetUserPermission = false) ∧
    (∀ call ∈ callsMade w (UpdateTeamMember ex hs c w).2, call.isSetUserPermission = false) := by
  have hR : (RemoveTeamMember ex hs c w).1.status = 403 ∧
      callsMade w (RemoveTeamMember ex hs c w).2
        = [Call.CanAdmin c.OrgId (c.ParamsInt64 ":teamId") c.SignedInUser] := by
    simp [RemoveTeamMember, callCanAdmin, hlegacy, hdeny, Response.status, callsMade]
  have hA1 : ∀ cmd, ex.BindAdd c.Req = .ok cmd →
        (AddTeamMember ex hs c w).1.status = 403 ∧
        callsMade w (AddTeamMember ex hs c w).2
          = [Call.CanAdmin c.OrgId (c.ParamsInt64 ":teamId") c.SignedInUser] := by
    intro cmd hb
    simp [AddTeamMember, hb, callCanAdmin, hlegacy, hdeny, Response.status, callsMade]
  have hA2 : ∀ e, ex.BindAdd c.Req = .error e →
        (AddTeamMember ex hs c w).1 = Response.Error 400 "bad request data" (some e) ∧
        callsMade w (AddTeamMember ex hs c w).2 = [] := by
    intro e hb
    simp [AddTeamMember, hb, callsMade]
  have hU1 : ∀ cmd, ex.BindUpdate c.Req = .ok cmd →
        (UpdateTeamMember ex hs c w).1.status = 403 ∧
        callsMade w (UpdateTeamMember ex hs c w).2
          = [Call.CanAdmin c.OrgId (c.ParamsInt64 ":teamId") c.SignedInUser] := by
    intro cmd hb
    simp [UpdateTeamMember, hb, callCanAdmin, hlegacy, hdeny, Response.status, callsMade]
  have hU2 : ∀ e, ex.BindUpdate c.Req = .error e →
        (UpdateTeamMember ex hs c w).1 = Response.Error 400 "bad request data" (some e) ∧
        callsMade w (UpdateTeamMember ex hs c w).2 = [] := by
    intro e hb
    simp [UpdateTeamMember, hb, callsMade]
  refine ⟨hR, ⟨hA1, hA2⟩, ⟨hU1, hU2⟩, ?_, ?_, ?_⟩
  · intro call hc
    rw [hR.2] at hc
    simp at hc
    subst hc
    rfl
  · intro call hc
    cases hb : ex.BindAdd c.Req with
    | error e => rw [(hA2 e hb).2] at hc; simp at hc
    | ok cmd => rw [(hA1 cmd hb).2] at hc; simp at hc; subst hc; rfl
  · intro call hc
    cases hb : ex.BindUpdate c.Req with
    | error e => rw [(hU2 e hb).2] at hc; simp at hc
    | ok cmd => rw [(hU1 cmd hb).2] at hc; simp at hc; subst hc; rfl

/-! ## C2, C3 — the membership precondition of add and update -/

/-- C2: an `AddTeamMember` request whose body binds and whose gate passes, for a user that
`IsTeamMember` reports as a member, is answered 400 "User is already added to this team", and
neither `MapPermission` nor `SetUserPermission` is called. -/
theorem C2_add_existing_member (ex : Externs σ) (hs : HTTPServer σ) (c : ReqContext) (w : World σ)
    (cmd : AddTeamMemberCommand)
    (hbind : ex.BindAdd c.Req = .ok cmd)
    (hgate : gatePasses hs w c.OrgId (c.ParamsInt64 ":teamId") c.SignedInUser)
    (hmember : (hs.SQLStore.IsTeamMember
        (afterGate hs w c.OrgId (c.ParamsInt64 ":teamId") c.SignedInUser).st
        c.OrgId (c.ParamsInt64 ":teamId") cmd.UserId).1 = (true, none)) :
    (AddTeamMember ex hs c w).1 = Response.Error 400 "User is already added to this team" none ∧
    (AddTeamMember ex hs c w).1.status = 400 ∧
    ∀ call ∈ callsMade w (AddTeamMember ex hs c w).2,
      call.isMapPermission = false ∧ call.isSetUserPermission = false := by
  cases htoggle : hs.Cfg.FeatureToggles "accesscontrol" with
  | true =>
    simp only [afterGate, htoggle] at hmember
    rcases hI : hs.SQLStore.IsTeamMember w.st c.OrgId (c.ParamsInt64 ":teamId") cmd.UserId
      with ⟨⟨b, e⟩, st1⟩
    simp [hI] at hmember
    obtain ⟨rfl, rfl⟩ := hmember
    simp [AddTeamMember, hbind, htoggle, callIsTeamMember, hI, Response.status, callsMade,
      Call.isMapPermission, Call.isSetUserPermission]
  | false =>
    have hadmin : (hs.teamGuardian.CanAdmin w.st c.OrgId (c.ParamsInt64 ":teamId")
        c.SignedInUser).1 = none := by
      rcases hgate with h | h
      · rw [htoggle] at h; cases h
      · exact h
    rcases hC : hs.teamGuardian.CanAdmin w.st c.OrgId (c.ParamsInt64 ":teamId") c.SignedInUser
      with ⟨r, st0⟩
    simp [hC] at hadmin
    subst hadmin
    simp [afterGate, htoggle, callCanAdmin, hC] at hmember
    rcases hI : hs.SQLStore.IsTeamMember st0 c.OrgId (c.ParamsInt64 ":teamId") cmd.UserId
      with ⟨⟨b, e⟩, st1⟩
    simp [hI] at hmember
    obtain ⟨rfl, rfl⟩ := hmember
    simp [AddTeamMember, hbind, htoggle, callCanAdmin, hC, callIsTeamMember, hI,
      Response.status, callsMade, Call.isMapPermission, Call.isSetUserPermission]

/-- C3: an `UpdateTeamMember` request whose body binds and whose gate passes, for a user that
`IsTeamMember` reports as not a member, is answered 404 "Team member not found.", and neither
`MapPermission` nor `SetUserPermission` is called. -/
theorem C3_update_non_member (ex : Externs σ) (hs : HTTPServer σ) (c : ReqContext) (w : World σ)
    (cmd : UpdateTeamMemberCommand)
    (hbind : ex.BindUpdate c.Req = .ok cmd)
    (hgate : gatePasses hs w c.OrgId (c.ParamsInt64 ":teamId") c.SignedInUser)
    (hmember : (hs.SQLStore.IsTeamMember
        (afterGate hs w c.OrgId (c.ParamsInt64 ":teamId") c.SignedInUser).st
        c.OrgId (c.ParamsInt64 ":teamId") (c.ParamsInt64 ":userId")).1 = (false, none)) :
    (UpdateTeamMember ex hs c w).1 = Response.Error 404 "Team member not found." none ∧
    (UpdateTeamMember ex hs c w).1.status = 404 ∧
    ∀ call ∈ callsMade w (UpdateTeamMember ex hs c w).2,
      call.isMapPermission = false ∧ call.isSetUserPermission = false := by
  cases htoggle : hs.Cfg.FeatureToggles "accesscontrol" with
  | true =>
    simp only [afterGate, htoggle] at hmember
    rcases hI : hs.SQLStore.IsTeamMember w.st c.OrgId (c.ParamsInt64 ":teamId")
      (c.ParamsInt64 ":userId") with ⟨⟨b, e⟩, st1⟩
    simp [hI] at hmember
    obtain ⟨rfl, rfl⟩ := hmember
    simp [UpdateTeamMember, hbind, htoggle, callIsTeamMember, hI, Response.status, callsMade,
      Call.isMapPermission, Call.isSetUserPermission]
  | false =>
    have hadmin : (hs.teamGuardian.CanAdmin w.st c.OrgId (c.ParamsInt64 ":teamId")
        c.SignedInUser).1 = none := by
      rcases hgate with h | h
      · rw [htoggle] at h; cases h
      · exact h
    rcases hC : hs.teamGuardian.CanAdmin w.st c.OrgId (c.ParamsInt64 ":teamId") c.SignedInUser
      with ⟨r, st0⟩
    simp [hC] at hadmin
    subst hadmin
    simp [afterGate, htoggle, callCanAdmin, hC] at hmember
    rcases hI : hs.SQLStore.IsTeamMember st0 c.OrgId (c.ParamsInt64 ":teamId")
      (c.ParamsInt64 ":userId") with ⟨⟨b, e⟩, st1⟩
    simp [hI] at hmember
    obtain ⟨rfl, rfl⟩ := hmember
    simp [UpdateTeamMember, hbind, htoggle, callCanAdmin, hC, callIsTeamMember, hI,
      Response.status, callsMade, Call.isMapPermission, Call.isSetUserPermission]

/-! ## C4, C5 — removal -/

/-- The run of `RemoveTeamMember` past a gate that passes: one `SetUserPermission` call with
the empty action list, whose error decides the response. -/
theorem RemoveTeamMember_past_gate (ex : Externs σ) (hs : HTTPServer σ) (c : ReqContext)
    (w : World σ)
    (hgate : gatePasses hs w c.OrgId (c.ParamsInt64 ":teamId") c.SignedInUser) :
    (RemoveTeamMember ex hs c w).2 =
      (callSetUserPermission hs.TeamPermissionsService
        (afterGate hs w c.OrgId (c.ParamsInt64 ":teamId") c.SignedInUser)
        c.OrgId (c.ParamsInt64 ":userId") (FormatInt (c.ParamsInt64 ":teamId")) []).2 ∧
    (RemoveTeamMember ex hs c w).1 =
      (match (callSetUserPermission hs.TeamPermissionsService
        (afterGate hs w c.OrgId (c.ParamsInt64 ":teamId") c.SignedInUser)
        c.OrgId (c.ParamsInt64 ":userId") (FormatInt (c.ParamsInt64 ":teamId")) []).1 with
      | none => Response.Success "Team Member removed"
      | some err =>
        if errorsIs err ex.ErrTeamNotFound then Response.Error 404 "Team not found" none
        else if errorsIs err ex.ErrTeamMemberNotFound then
          Response.Error 404 "Team member not found" none
        else Response.Error 500 "Failed to remove Member from Team" (some err)) := by
  have key : ∀ w1 : World σ,
      (match callSetUserPermission hs.TeamPermissionsService w1 c.OrgId (c.ParamsInt64 ":userId")
          (FormatInt (c.ParamsInt64 ":teamId")) [] with
        | (some err, w) =>
          if errorsIs err ex.ErrTeamNotFound then
            (Response.Error 404 "Team not found" none, w)
          else if errorsIs err ex.ErrTeamMemberNotFound then
            (Response.Error 404 "Team member not found" none, w)
          else
            (Response.Error 500 "Failed to remove Member from Team" (some err), w)
        | (none, w) => (Response.Success "Team Member removed", w)) =
      ((match (callSetUserPermission hs.TeamPermissionsService w1
          c.OrgId (c.ParamsInt64 ":userId") (FormatInt (c.ParamsInt64 ":teamId")) []).1 with
        | none => Response.Success "Team Member removed"
        | some err =>
          if errorsIs err ex.ErrTeamNotFound then Response.Error 404 "Team not found" none
          else if errorsIs err ex.ErrTeamMemberNotFound then
            Response.Error 404 "Team member not found" none
          else Response.Error 500 "Failed to remove Member from Team" (some err)),
       (callSetUserPermission hs.TeamPermissionsService w1
          c.OrgId (c.ParamsInt64 ":userId") (FormatInt (c.ParamsInt64 ":teamId")) []).2) := by
    intro w1
    rcases hS : callSetUserPermission hs.TeamPermissionsService w1 c.OrgId
      (c.ParamsInt64 ":userId") (FormatInt (c.ParamsInt64 ":teamId")) [] with ⟨e, w2⟩
    cases e with
    | none => rfl
    | some err => simp only; split_ifs <;> rfl
  cases htoggle : hs.Cfg.FeatureToggles "accesscontrol" with
  | true =>
    simp only [RemoveTeamMember, afterGate, htoggle, Bool.not_true, Bool.false_eq_true,
      if_false, key]
    exact ⟨trivial, trivial⟩
  | false =>
    have hadmin : (hs.teamGuardian.CanAdmin w.st c.OrgId (c.ParamsInt64 ":teamId")
        c.SignedInUser).1 = none := by
      rcases hgate with h | h
      · rw [htoggle] at h; cases h
      · exact h
    have hcall : callCanAdmin hs w c.OrgId (c.ParamsInt64 ":teamId") c.SignedInUser
        = (none, (callCanAdmin hs w c.OrgId (c.ParamsInt64 ":teamId") c.SignedInUser).2) := by
      simp [callCanAdmin, hadmin]
    simp only [RemoveTeamMember, afterGate, htoggle, Bool.not_false, if_true]
    rw [hcall]
    simp only [key]
    exact ⟨trivial, trivial⟩

/-- C4: a `RemoveTeamMember` request whose gate passes makes, besides the guardian call of the
gate, exactly one call: `SetUserPermission` with the request's organisation and user, the
decimal string of the team id and the empty action list.  No `IsTeamMember` query and no other
write is made, and nothing is assumed about the user being a member. -/
theorem C4_remove_writes_empty_once (ex : Externs σ) (hs : HTTPServer σ) (c : ReqContext)
    (w : World σ)
    (hgate : gatePasses hs w c.OrgId (c.ParamsInt64 ":teamId") c.SignedInUser) :
    (callsMade w (RemoveTeamMember ex hs c w).2).filter (fun call => !call.isCanAdmin)
      = [Call.SetUserPermission c.OrgId (c.ParamsInt64 ":userId")
          (FormatInt (c.ParamsInt64 ":teamId")) []] ∧
    (callsMade w (RemoveTeamMember ex hs c w).2).filter Call.isSetUserPermission
      = [Call.SetUserPermission c.OrgId (c.ParamsInt64 ":userId")
          (FormatInt (c.ParamsInt64 ":teamId")) []] ∧
    (∀ call ∈ callsMade w (RemoveTeamMember ex hs c w).2, call.isIsTeamMember = false) ∧
    (RemoveTeamMember ex hs c w).2.st
      = (hs.TeamPermissionsService.SetUserPermission
          (afterGate hs w c.OrgId (c.ParamsInt64 ":teamId") c.SignedInUser).st
          c.OrgId (c.ParamsInt64 ":userId") (FormatInt (c.ParamsInt64 ":teamId")) []).2 := by
  rw [(RemoveTeamMember_past_gate ex hs c w hgate).1]
  cases htoggle : hs.Cfg.FeatureToggles "accesscontrol" <;>
    simp [callsMade, callSetUserPermission, afterGate, htoggle, callCanAdmin, Call.isCanAdmin,
      Call.isSetUserPermission, Call.isIsTeamMember]

/-- C5: past a gate that passes, the response of `RemoveTeamMember` is decided by the error of
its `SetUserPermission` call: `nil` gives the 200 success, an error matching `ErrTeamNotFound`
gives 404 "Team not found", one matching only `ErrTeamMemberNotFound` gives 404 "Team member
not found", any other error gives 500. -/
theorem C5_remove_error_translation (ex : Externs σ) (hs : HTTPServer σ) (c : ReqContext)
    (w : World σ)
    (hgate : gatePasses hs w c.OrgId (c.ParamsInt64 ":teamId") c.SignedInUser) :
    ((hs.TeamPermissionsService.SetUserPermission
          (afterGate hs w c.OrgId (c.ParamsInt64 ":teamId") c.SignedInUser).st
          c.OrgId (c.ParamsInt64 ":userId") (FormatInt (c.ParamsInt64 ":teamId")) []).1 = none →
      (RemoveTeamMember ex hs c w).1 = Response.Success "Team Member removed" ∧
      (RemoveTeamMember ex hs c w).1.status = 200) ∧
    (∀ err, (hs.TeamPermissionsService.SetUserPermission
          (afterGate hs w c.OrgId (c.ParamsInt64 ":teamId") c.SignedInUser).st
          c.OrgId (c.ParamsInt64 ":userId") (FormatInt (c.ParamsInt64 ":teamId")) []).1
          = some err →
      (errorsIs err ex.ErrTeamNotFound = true →
        (RemoveTeamMember ex hs c w).1 = Response.Error 404 "Team not found" none) ∧
      (errorsIs err ex.ErrTeamNotFound = false → errorsIs err ex.ErrTeamMemberNotFound = true →
        (RemoveTeamMember ex hs c w).1 = Response.Error 404 "Team member not found" none) ∧
      (errorsIs err ex.ErrTeamNotFound = false → errorsIs err ex.ErrTeamMemberNotFound = false →
        (RemoveTeamMember ex hs c w).1
          = Response.Error 500 "Failed to remove Member from Team" (some err) ∧
        (RemoveTeamMember ex hs c w).1.status = 500)) := by
  rw [(RemoveTeamMember_past_gate ex hs c w hgate).2]
  simp only [callSetUserPermission]
  refine ⟨fun h => ?_, fun err h => ⟨fun h1 => ?_, fun h1 h2 => ?_, fun h1 h2 => ?_⟩⟩
  · simp [h, Response.status]
  · simp [h, h1]
  · simp [h, h1, h2]
  · simp [h, h1, h2, Response.status]

/-! ## C6, C10 — the helper `addOrUpdateTeamMember` -/

/-- The helper is the mapper call followed by the store write. -/
theorem addOrUpdateTeamMember_eq (ex : Externs σ) (svc : Service σ) (userID orgID teamID : Int)
    (isExternal : Bool) (permission : PermissionType) (w : World σ) :
    addOrUpdateTeamMember ex svc userID orgID teamID isExternal permission w
      = callSetUserPermission svc
          (callMapPermission svc w (normalize (ex.PermissionString permission))).2
          orgID userID (FormatInt teamID)
          (callMapPermission svc w (normalize (ex.PermissionString permission))).1 := by
  simp only [addOrUpdateTeamMember, normalize]

/-- The trace of the helper: the calls made before, then the mapper call and the store write. -/
theorem addOrUpdateTeamMember_trace (ex : Externs σ) (svc : Service σ)
    (userID orgID teamID : Int) (isExternal : Bool) (permission : PermissionType) (w : World σ) :
    (addOrUpdateTeamMember ex svc userID orgID teamID isExternal permission w).2.trace
      = w.trace ++ [Call.MapPermission (normalize (ex.PermissionString permission)),
         Call.SetUserPermission orgID userID (FormatInt teamID)
          (svc.MapPermission w.st (normalize (ex.PermissionString permission))).1] := by
  rw [addOrUpdateTeamMember_eq]
  simp [callSetUserPermission, callMapPermission]


/-- C6: `addOrUpdateTeamMember` calls `MapPermission` once, with the normalized label of the
permission, then `SetUserPermission` once, with the organisation, the user, the decimal string
of the team id and the actions the mapper returned, and it returns the error of that call.
The empty label is normalized to "Member" and every other label is kept; a permission
labelled "Admin" for team 3 is written as `MapPermission "Admin"` to resource "3". -/
theorem C6_addOrUpdate_calls (ex : Externs σ) (svc : Service σ) (userID orgID teamID : Int)
    (isExternal : Bool) (permission : PermissionType) (w : World σ) :
    callsMade w (addOrUpdateTeamMember ex svc userID orgID teamID isExternal permission w).2
      = [Call.MapPermission (normalize (ex.PermissionString permission)),
         Call.SetUserPermission orgID userID (FormatInt teamID)
          (svc.MapPermission w.st (normalize (ex.PermissionString permission))).1] ∧
    (addOrUpdateTeamMember ex svc userID orgID teamID isExternal permission w).1
      = (svc.SetUserPermission
          (svc.MapPermission w.st (normalize (ex.PermissionString permission))).2
          orgID userID (FormatInt teamID)
          (svc.MapPermission w.st (normalize (ex.PermissionString permission))).1).1 ∧
    (addOrUpdateTeamMember ex svc userID orgID teamID isExternal permission w).2.st
      = (svc.SetUserPermission
          (svc.MapPermission w.st (normalize (ex.PermissionString permission))).2
          orgID userID (FormatInt teamID)
          (svc.MapPermission w.st (normalize (ex.PermissionString permission))).1).2 ∧
    normalize "" = "Member" ∧
    (∀ s : String, s ≠ "" → normalize s = s) ∧
    (ex.PermissionString permission = "" →
      callsMade w (addOrUpdateTeamMember ex svc userID orgID teamID isExternal permission w).2
        = [Call.MapPermission "Member",
           Call.SetUserPermission orgID userID (FormatInt teamID)
            (svc.MapPermission w.st "Member").1]) ∧
    (ex.PermissionString permission = "Admin" → teamID = 3 →
      callsMade w (addOrUpdateTeamMember ex svc userID orgID teamID isExternal permission w).2
        = [Call.MapPermission "Admin",
           Call.SetUserPermission orgID userID "3" (svc.MapPermission w.st "Admin").1]) := by
  have hshape := addOrUpdateTeamMember_eq ex svc userID orgID teamID isExternal permission w
  have hcalls :
      callsMade w (addOrUpdateTeamMember ex svc userID orgID teamID isExternal permission w).2
      = [Call.MapPermission (normalize (ex.PermissionString permission)),
         Call.SetUserPermission orgID userID (FormatInt teamID)
          (svc.MapPermission w.st (normalize (ex.PermissionString permission))).1] := by
    rw [hshape]
    simp [callsMade, callSetUserPermission, callMapPermission]
  have hthree : FormatInt 3 = "3" := by decide
  refine ⟨hcalls, ?_, ?_, ?_, ?_, ?_, ?_⟩
  · rw [hshape]; simp [callSetUserPermission, callMapPermission]
  · rw [hshape]; simp [callSetUserPermission, callMapPermission]
  · simp [normalize]
  · intro s hs; simp [normalize, hs]
  · intro h; rw [hcalls, h]; simp [normalize]
  · intro h h3; rw [hcalls, h, h3, hthree]; simp [normalize]

/-- C10: the `isExternal` argument of `addOrUpdateTeamMember` is never read, so the run is the
same for `true` and `false`; and an `AddTeamMember` request whose bound command is changed
only in its `External` field gives the same response, the same calls and the same final
collaborator state. -/
theorem C10_isExternal_has_no_effect (ex : Externs σ) (hs : HTTPServer σ) (c : ReqContext)
    (w : World σ) (userID orgID teamID : Int) (permission : PermissionType) (external : Bool) :
    addOrUpdateTeamMember ex hs.TeamPermissionsService userID orgID teamID true permission w
      = addOrUpdateTeamMember ex hs.TeamPermissionsService userID orgID teamID false permission w ∧
    AddTeamMember
        { ex with BindAdd := fun req =>
            (ex.BindAdd req).map (fun cmd => { cmd with External := external }) } hs c w
      = AddTeamMember ex hs c w := by
  refine ⟨rfl, ?_⟩
  cases hb : ex.BindAdd c.Req with
  | error e => simp [AddTeamMember, hb, Except.map]
  | ok cmd => simp [AddTeamMember, hb, Except.map, addOrUpdateTeamMember]

/-! ## C9 — the gate in fine-grained mode -/

/-- C9: in fine-grained mode no handler calls `CanAdmin`, and replacing the actor of the
request and the whole guardian leaves the response, the calls and the final collaborator
state of `AddTeamMember`, `UpdateTeamMember` and `RemoveTeamMember` unchanged. -/
theorem C9_fine_grained_gate_is_noop (ex : Externs σ) (hs : HTTPServer σ) (c : ReqContext)
    (w : World σ) (actor : SignedInUser) (guardian : TeamGuardian σ)
    (hfine : hs.Cfg.FeatureToggles "accesscontrol" = true) :
    (AddTeamMember ex { hs with teamGuardian := guardian } { c with SignedInUser := actor } w
        = AddTeamMember ex hs c w ∧
      UpdateTeamMember ex { hs with teamGuardian := guardian } { c with SignedInUser := actor } w
        = UpdateTeamMember ex hs c w ∧
      RemoveTeamMember ex { hs with teamGuardian := guardian } { c with SignedInUser := actor } w
        = RemoveTeamMember ex hs c w) ∧
    (∀ call ∈ callsMade w (AddTeamMember ex hs c w).2, call.isCanAdmin = false) ∧
    (∀ call ∈ callsMade w (UpdateTeamMember ex hs c w).2, call.isCanAdmin = false) ∧
    (∀ call ∈ callsMade w (RemoveTeamMember ex hs c w).2, call.isCanAdmin = false) := by
  refine ⟨⟨?_, ?_, ?_⟩, ?_, ?_, ?_⟩
  · simp [AddTeamMember, hfine, callIsTeamMember]
  · simp [UpdateTeamMember, hfine, callIsTeamMember]
  · simp [RemoveTeamMember, hfine]
  · intro call hcall
    cases hb : ex.BindAdd c.Req with
    | error e => simp [AddTeamMember, hb, callsMade] at hcall
    | ok cmd =>
      rcases hI : hs.SQLStore.IsTeamMember w.st c.OrgId (c.ParamsInt64 ":teamId") cmd.UserId
        with ⟨⟨b, e⟩, st1⟩
      rcases hA : addOrUpdateTeamMember ex hs.TeamPermissionsService cmd.UserId c.OrgId
        (c.ParamsInt64 ":teamId") cmd.External cmd.Permission
        ⟨st1, w.trace ++ [Call.IsTeamMember c.OrgId (c.ParamsInt64 ":teamId") cmd.UserId]⟩
        with ⟨e2, w2⟩
      have ht := addOrUpdateTeamMember_trace ex hs.TeamPermissionsService cmd.UserId c.OrgId
        (c.ParamsInt64 ":teamId") cmd.External cmd.Permission
        ⟨st1, w.trace ++ [Call.IsTeamMember c.OrgId (c.ParamsInt64 ":teamId") cmd.UserId]⟩
      rw [hA] at ht
      simp only at ht
      cases e <;> cases b <;> cases e2 <;>
        simp [AddTeamMember, hb, hfine, callIsTeamMember, hI, hA, ht, callsMade] at hcall <;>
        (try rcases hcall with rfl | rfl | rfl) <;> rfl
  · intro call hcall
    cases hb : ex.BindUpdate c.Req with
    | error e => simp [UpdateTeamMember, hb, callsMade] at hcall
    | ok cmd =>
      rcases hI : hs.SQLStore.IsTeamMember w.st c.OrgId (c.ParamsInt64 ":teamId")
        (c.ParamsInt64 ":userId") with ⟨⟨b, e⟩, st1⟩
      rcases hA : addOrUpdateTeamMember ex hs.TeamPermissionsService (c.ParamsInt64 ":userId")
        c.OrgId (c.ParamsInt64 ":teamId") false cmd.Permission
        ⟨st1, w.trace ++ [Call.IsTeamMember c.OrgId (c.ParamsInt64 ":teamId")
          (c.ParamsInt64 ":userId")]⟩
        with ⟨e2, w2⟩
      have ht := addOrUpdateTeamMember_trace ex hs.TeamPermissionsService
        (c.ParamsInt64 ":userId") c.OrgId (c.ParamsInt64 ":teamId") false cmd.Permission
        ⟨st1, w.trace ++ [Call.IsTeamMember c.OrgId (c.ParamsInt64 ":teamId")
          (c.ParamsInt64 ":userId")]⟩
      rw [hA] at ht
      simp only at ht
      cases e <;> cases b <;> cases e2 <;>
        simp [UpdateTeamMember, hb, hfine, callIsTeamMember, hI, hA, ht, callsMade] at hcall <;>
        (try rcases hcall with rfl | rfl | rfl) <;> rfl
  · intro call hcall
    rw [(RemoveTeamMember_past_gate ex hs c w (Or.inl hfine)).1] at hcall
    simp [callsMade, callSetUserPermission, afterGate, hfine] at hcall
    subst hcall
    rfl

/-! ## C7 — listing members -/

/-- The loop of `GetTeamMembers` appends, in order, the presented form of every member that
is not skipped. -/
theorem GetTeamMembers_loop (ex : Externs σ) (hs : HTTPServer σ) (c : ReqContext)
    (result acc : List TeamMemberDTO) :
    result.foldl (GetTeamMembers_loopBody ex hs c) acc
      = acc ++ (result.filter (fun member =>
          !(!hs.Cfg.FeatureToggles "accesscontrol" &&
            ex.IsHiddenUser member.Login c.SignedInUser hs.Cfg))).map (presented ex hs) := by
  induction result generalizing acc with
  | nil => simp
  | cons member rest ih =>
    rw [List.foldl_cons, ih]
    by_cases hskip : (!hs.Cfg.FeatureToggles "accesscontrol" &&
        ex.IsHiddenUser member.Login c.SignedInUser hs.Cfg) = true
    · have hbody : GetTeamMembers_loopBody ex hs c acc member = acc := by
        unfold GetTeamMembers_loopBody
        rw [hskip]
        rfl
      rw [hbody, List.filter_cons]
      simp only [hskip, Bool.not_true, Bool.false_eq_true, if_false]
    · have hkeep : (!hs.Cfg.FeatureToggles "accesscontrol" &&
          ex.IsHiddenUser member.Login c.SignedInUser hs.Cfg) = false := by
        simpa using hskip
      rw [List.filter_cons]
      simp only [hkeep, Bool.not_false, if_true, List.map_cons]
      have hbody : GetTeamMembers_loopBody ex hs c acc member = acc ++ [presented ex hs member] := by
        unfold GetTeamMembers_loopBody
        rw [hkeep]
        by_cases hl : (hs.License.FeatureEnabled "teamgroupsync" && member.External) = true
        · simp [presented, hl]
        · simp [presented, hl]
      rw [hbody, List.append_assoc]
      rfl

/-- C7: on a successful query `GetTeamMembers` answers 200 with, in legacy mode, the members
of the query result for which `IsHiddenUser` is false, in their order, and in fine-grained
mode all the members of the query result, in their order, hidden ones included.  Each member
is returned with its presentation fields (avatar, labels) set and is otherwise unchanged. -/
theorem C7_list_members (ex : Externs σ) (hs : HTTPServer σ) (c : ReqContext) (w : World σ)
    (result : List TeamMemberDTO)
    (hquery : (ex.Dispatch w.st { OrgId := c.OrgId, TeamId := c.ParamsInt64 ":teamId" }).1
      = (result, none)) :
    (GetTeamMembers ex hs c w).1.status = 200 ∧
    (hs.Cfg.FeatureToggles "accesscontrol" = false →
      (GetTeamMembers ex hs c w).1 = Response.JSON 200 (Body.members
        ((result.filter (fun member => !ex.IsHiddenUser member.Login c.SignedInUser hs.Cfg)).map
          (presented ex hs)))) ∧
    (hs.Cfg.FeatureToggles "accesscontrol" = true →
      (GetTeamMembers ex hs c w).1 = Response.JSON 200 (Body.members
        (result.map (presented ex hs))) ∧
      (result.map (presented ex hs)).length = result.length) ∧
    (∀ members : List TeamMemberDTO,
      List.Forall₂ sameMember (members.map (presented ex hs)) members) := by
  rcases hD : ex.Dispatch w.st { OrgId := c.OrgId, TeamId := c.ParamsInt64 ":teamId" }
    with ⟨⟨res, e⟩, st1⟩
  simp [hD] at hquery
  obtain ⟨rfl, rfl⟩ := hquery
  have hresp : (GetTeamMembers ex hs c w).1 = Response.JSON 200 (Body.members
      ((res.filter (fun member =>
          !(!hs.Cfg.FeatureToggles "accesscontrol" &&
            ex.IsHiddenUser member.Login c.SignedInUser hs.Cfg))).map (presented ex hs))) := by
    simp [GetTeamMembers, callDispatch, hD, GetTeamMembers_loop]
  refine ⟨?_, ?_, ?_, ?_⟩
  · rw [hresp]; rfl
  · intro hlegacy
    rw [hresp]
    simp [hlegacy]
  · intro hfine
    rw [hresp]
    simp [hfine]
  · intro members
    induction members with
    | nil => exact List.Forall₂.nil
    | cons member rest ih =>
      exact List.Forall₂.cons (by simp [sameMember, presented]) ih

/-! ## C8 — update and the "external" attribute -/

/-- C1, as stated, fails on a body that does not bind: in legacy mode, with a guardian that
answers an error to the actor, `AddTeamMember` and `UpdateTeamMember` answer 400, not 403. -/
theorem C1_counterexample_unbound_body :
    demoLegacy.Cfg.FeatureToggles "accesscontrol" = false ∧
    (demoLegacy.teamGuardian.CanAdmin demoWorld.st 1 3 demoViewer).1 = some demoErrNotAllowed ∧
    (AddTeamMember demoExterns demoLegacy (demoRequest demoViewer 5 "") demoWorld).1
      = Response.Error 400 "bad request data" (some (.sentinel "bad request data")) ∧
    (AddTeamMember demoExterns demoLegacy (demoRequest demoViewer 5 "") demoWorld).1.status ≠ 403 ∧
    (UpdateTeamMember demoExterns demoLegacy (demoRequest demoViewer 5 "") demoWorld).1
      = Response.Error 400 "bad request data" (some (.sentinel "bad request data")) ∧
    (UpdateTeamMember demoExterns demoLegacy (demoRequest demoViewer 5 "") demoWorld).1.status
      ≠ 403 := by
  decide

/-- C1 (amended) on the deployment: the viewer is denied with 403 on remove, and on add and
update with a body that binds; the guardian call is the only call made. -/
theorem C1_legacy_gate_denies_witness :
    (RemoveTeamMember demoExterns demoLegacy (demoRequest demoViewer 7 "userId=5") demoWorld).1.status
      = 403 ∧
    (AddTeamMember demoExterns demoLegacy (demoRequest demoViewer 7 "userId=5") demoWorld).1.status
      = 403 ∧
    callsMade demoWorld
      (AddTeamMember demoExterns demoLegacy (demoRequest demoViewer 7 "userId=5") demoWorld).2
      = [Call.CanAdmin 1 3 demoViewer] :=
  ⟨(C1_legacy_gate_denies demoExterns demoLegacy (demoRequest demoViewer 7 "userId=5") demoWorld
      demoErrNotAllowed (by decide) (by decide)).1.1,
   (C1_legacy_gate_denies demoExterns demoLegacy (demoRequest demoViewer 7 "userId=5") demoWorld
      demoErrNotAllowed (by decide) (by decide)).2.1.1
      { UserId := 5, OrgId := 0, TeamId := 0, External := false, Permission := 4 } (by rfl)⟩

/-- C2 on the deployment: the admin adds user 7, who is already a member of team 3. -/
theorem C2_add_existing_member_witness :
    (AddTeamMember demoExterns demoLegacy (demoRequest demoAdmin 0 "userId=7") demoWorld).1
      = Response.Error 400 "User is already added to this team" none ∧
    (AddTeamMember demoExterns demoLegacy (demoRequest demoAdmin 0 "userId=7") demoWorld).1.status
      = 400 ∧
    ∀ call ∈ callsMade demoWorld
        (AddTeamMember demoExterns demoLegacy (demoRequest demoAdmin 0 "userId=7") demoWorld).2,
      call.isMapPermission = false ∧ call.isSetUserPermission = false :=
  C2_add_existing_member demoExterns demoLegacy (demoRequest demoAdmin 0 "userId=7") demoWorld
    { UserId := 7, OrgId := 0, TeamId := 0, External := false, Permission := 0 }
    (by rfl) (Or.inr (by decide)) (by decide)

/-- C3 on the deployment: in fine-grained mode, an update of user 5, who is not a member. -/
theorem C3_update_non_member_witness :
    (UpdateTeamMember demoExterns demoFine (demoRequest demoViewer 5 "permission=4") demoWorld).1
      = Response.Error 404 "Team member not found." none ∧
    (UpdateTeamMember demoExterns demoFine (demoRequest demoViewer 5 "permission=4")
      demoWorld).1.status = 404 ∧
    ∀ call ∈ callsMade demoWorld
        (UpdateTeamMember demoExterns demoFine (demoRequest demoViewer 5 "permission=4")
          demoWorld).2,
      call.isMapPermission = false ∧ call.isSetUserPermission = false :=
  C3_update_non_member demoExterns demoFine (demoRequest demoViewer 5 "permission=4") demoWorld
    { UserId := 0, OrgId := 0, TeamId := 0, Permission := 4 }
    (by rfl) (Or.inl (by decide)) (by decide)

/-- C4 on the deployment: the admin removes user 5, who is not a member; the write is made
all the same. -/
theorem C4_remove_writes_empty_once_witness :
    (callsMade demoWorld
        (RemoveTeamMember demoExterns demoLegacy (demoRequest demoAdmin 5 "") demoWorld).2).filter
        (fun call => !call.isCanAdmin)
      = [Call.SetUserPermission 1 5 "3" []] :=
  (C4_remove_writes_empty_once demoExterns demoLegacy (demoRequest demoAdmin 5 "") demoWorld
    (Or.inr (by decide))).1

/-- C5 on the deployment: removing user 5, who is not a member, is answered 404 "Team member
not found"; removing member 7 succeeds. -/
theorem C5_remove_error_translation_witness :
    (RemoveTeamMember demoExterns demoLegacy (demoRequest demoAdmin 5 "") demoWorld).1
      = Response.Error 404 "Team member not found" none ∧
    (RemoveTeamMember demoExterns demoLegacy (demoRequest demoAdmin 7 "") demoWorld).1.status
      = 200 :=
  ⟨((C5_remove_error_translation demoExterns demoLegacy (demoRequest demoAdmin 5 "") demoWorld
      (Or.inr (by decide))).2 demoErrTeamMemberNotFound (by decide)).2.1 (by decide) (by decide),
   ((C5_remove_error_translation demoExterns demoLegacy (demoRequest demoAdmin 7 "") demoWorld
      (Or.inr (by decide))).1 (by decide)).2⟩

/-- C6 on the deployment: level 4 is labelled "Admin" and written to resource "3"; level 0
has the empty label and is mapped as "Member". -/
theorem C6_addOrUpdate_calls_witness :
    callsMade demoWorld
        (addOrUpdateTeamMember demoExterns demoLegacy.TeamPermissionsService 5 1 3 false 4
          demoWorld).2
      = [Call.MapPermission "Admin",
         Call.SetUserPermission 1 5 "3" ["teams:read", "teams:write", "teams.permissions:write"]] ∧
    callsMade demoWorld
        (addOrUpdateTeamMember demoExterns demoLegacy.TeamPermissionsService 5 1 3 false 0
          demoWorld).2
      = [Call.MapPermission "Member", Call.SetUserPermission 1 5 "3" ["teams:read"]] :=
  ⟨(C6_addOrUpdate_calls demoExterns demoLegacy.TeamPermissionsService 5 1 3 false 4
      demoWorld).2.2.2.2.2.2 (by decide) (by decide),
   (C6_addOrUpdate_calls demoExterns demoLegacy.TeamPermissionsService 5 1 3 false 0
      demoWorld).2.2.2.2.2.1 (by decide)⟩

/-- C7 on the deployment: the viewer does not see the hidden login in legacy mode and sees
both members in fine-grained mode. -/
theorem C7_list_members_witness :
    (GetTeamMembers demoExterns demoLegacy (demoRequest demoViewer 0 "") demoWorld).1
      = Response.JSON 200 (Body.members
          [ { OrgId := 1, TeamId := 3, UserId := 7, External := true, AuthModule := "ldap",
              Email := "ann@example.org", Name := "Ann", Login := "ann",
              AvatarUrl := "/avatar/ann@example.org", Labels := ["LDAP"], Permission := 0 } ]) ∧
    (GetTeamMembers demoExterns demoFine (demoRequest demoViewer 0 "") demoWorld).1
      = Response.JSON 200 (Body.members
          [ { OrgId := 1, TeamId := 3, UserId := 7, External := true, AuthModule := "ldap",
              Email := "ann@example.org", Name := "Ann", Login := "ann",
              AvatarUrl := "/avatar/ann@example.org", Labels := ["LDAP"], Permission := 0 },
            { OrgId := 1, TeamId := 3, UserId := 8, External := false, AuthModule := "",
              Email := "ghost@example.org", Name := "Ghost", Login := "ghost",
              AvatarUrl := "/avatar/ghost@example.org", Labels := [], Permission := 4 } ]) :=
  ⟨(C7_list_members demoExterns demoLegacy (demoRequest demoViewer 0 "") demoWorld demoRows
      (by decide)).2.1 (by decide),
   ((C7_list_members demoExterns demoFine (demoRequest demoViewer 0 "") demoWorld demoRows
      (by decide)).2.2.1 (by decide)).1⟩

/-- C9 on the deployment: in fine-grained mode the viewer, under a guardian that denies
everybody, gets the run the admin gets. -/
theorem C9_fine_grained_gate_is_noop_witness :
    AddTeamMember demoExterns
        { demoFine with teamGuardian :=
            { CanAdmin := fun s _ _ _ => (some demoErrNotAllowed, s) } }
        { demoRequest demoAdmin 0 "userId=5" with SignedInUser := demoViewer } demoWorld
      = AddTeamMember demoExterns demoFine (demoRequest demoAdmin 0 "userId=5") demoWorld :=
  (C9_fine_grained_gate_is_noop demoExterns demoFine (demoRequest demoAdmin 0 "userId=5") demoWorld
    demoViewer { CanAdmin := fun s _ _ _ => (some demoErrNotAllowed, s) } (by decide)).1.1

end TeamMembers
